import Mathlib

/-!
# Verification of the ipwxlearn execution-context core

Shallow embedding of the context-stack, name-validation, session/checkpoint
and training-monitor code of the `ipwxlearn` repository, together with
theorems settling the specification claims about it.

Python exceptions are modelled with `Except`; Python `None` returned by a
procedure is modelled as `Unit`.  Machine values stored in variables are
modelled as `Int` (the tests only use scalar `int32` values).
-/

set_option autoImplicit false

namespace Ipwx

/-- Python exceptions raised by the embedded code. -/
inductive PyError
  | valueError (msg : String)
  | indexError (msg : String)
  | runtimeError (msg : String)
  deriving DecidableEq, Repr

/-! ## `ipwxlearn/utils/concurrent.py` — `ThreadLocalStack` -/

/-- `ThreadLocalStack` from `utils/concurrent.py`: a per-thread list used as a
stack; `push` appends, `pop` removes the last element, `top` is `stack[-1]`.
The thread-local aspect is outside the embedding: each value of this type is
one thread's stack. -/
structure ThreadLocalStack (α : Type) where
  stack : List α
  deriving DecidableEq

/-- `push`: `self._stack.append(value)`. -/
def ThreadLocalStack.push {α : Type} (t : ThreadLocalStack α) (value : α) :
    ThreadLocalStack α :=
  ⟨t.stack ++ [value]⟩

/-- `pop`: `self._stack.pop()`.  On an empty list Python raises
`IndexError('pop from empty list')` — the failure the spec's taxonomy calls
`EmptyStackError`. -/
def ThreadLocalStack.pop {α : Type} (t : ThreadLocalStack α) :
    Except PyError (α × ThreadLocalStack α) :=
  match t.stack.getLast? with
  | some v => Except.ok (v, ⟨t.stack.dropLast⟩)
  | none => Except.error (PyError.indexError "pop from empty list")

/-- `top`: `self._stack[-1]`.  On an empty list Python raises
`IndexError('list index out of range')`. -/
def ThreadLocalStack.top {α : Type} (t : ThreadLocalStack α) :
    Except PyError α :=
  match t.stack.getLast? with
  | some v => Except.ok v
  | none => Except.error (PyError.indexError "list index out of range")

/-- `empty`: `not self._stack`. -/
def ThreadLocalStack.empty {α : Type} (t : ThreadLocalStack α) : Bool :=
  t.stack.isEmpty

/-! ## `ipwxlearn/utils/misc.py` — name validation -/

/-- First-character class of the pattern `[_a-zA-Z]`. -/
def isNameStartChar (c : Char) : Bool :=
  c == '_' || c.isAlpha

/-- Character class `[_a-zA-Z0-9]`. -/
def isNameChar (c : Char) : Bool :=
  c == '_' || c.isAlpha || c.isDigit

/-- Whether a character list matches the core regular expression
`[_a-zA-Z][_a-zA-Z0-9]*` in full. -/
def matchesNameCore : List Char → Bool
  | [] => false
  | c :: cs => isNameStartChar c && cs.all isNameChar

/-- Python `re.match(r'^[_a-zA-Z][_a-zA-Z0-9]*$', s)` viewed as a Boolean.
In Python, `$` (without `re.MULTILINE`) matches at the end of the string *or
just before a newline at the end of the string*, so `s` matches iff `s`
itself matches the core pattern or `s` is a core-pattern match followed by a
single trailing newline character. -/
def reMatchObjectNamePattern (s : String) : Bool :=
  matchesNameCore s.data ||
    (match s.data.getLast? with
     | some c => c == '\n' && matchesNameCore s.data.dropLast
     | none => false)

/-- `require_object_name` from `utils/misc.py`: raises `ValueError` when the
regular expression does not match.  (Python formats the message with
`repr(name)`; the message text is carried but not load-bearing.) -/
def require_object_name (name : String) : Except PyError Unit :=
  if reMatchObjectNamePattern name then Except.ok ()
  else Except.error (PyError.valueError (name ++ " is not a valid object name."))

/-- The identifier predicate as the claim states it: a name is *invalid* iff
it is empty, begins with a digit, or contains a character other than letters,
digits and underscore. -/
def claimInvalidName (s : String) : Bool :=
  match s.data with
  | [] => true
  | c :: cs => c.isDigit || !((c :: cs).all isNameChar)

/-- Python truthiness of `None`: falsy. -/
def pyNoneTruthy : Bool := false

/-- The generator expression `all(require_object_name(n) for n in parts)` from
`require_object_full_name`: `all` pulls elements one by one (so a raised
`ValueError` propagates), and stops with `False` at the first falsy element.
Since `require_object_name` returns `None` — which is falsy — `all` stops
right after the first element it evaluates. -/
def pyAllRequireName : List String → Except PyError Bool
  | [] => Except.ok true
  | n :: rest => do
      let _ ← require_object_name n
      if pyNoneTruthy then pyAllRequireName rest else pure false

/-- Helper for `pySplitSlash`: accumulates the current component (reversed). -/
def pySplitSlashAux : List Char → List Char → List String
  | [], acc => [String.mk acc.reverse]
  | c :: cs, acc =>
      if c == '/' then String.mk acc.reverse :: pySplitSlashAux cs []
      else pySplitSlashAux cs (c :: acc)

/-- Python `full_name.split('/')`: splits on every slash, keeping empty
components; the empty string yields `[""]`, so the result is never the empty
list. -/
def pySplitSlash (s : String) : List String :=
  pySplitSlashAux s.data []

/-- `require_object_full_name` from `utils/misc.py`:
`parts = full_name.split('/'); return parts and all(require_object_name(n) for n in parts)`.
Python's `split` always yields at least one element, so `parts` is truthy and
the result is the value of the `all(...)` expression. -/
def require_object_full_name (full_name : String) : Except PyError Bool :=
  let parts := pySplitSlash full_name
  match parts with
  | [] => Except.ok false
  | _ :: _ => pyAllRequireName parts

/-! ### Claim theorems: C6, C7, C8 -/

/-- C6: calling `pop()` on an empty context stack, or querying its top element
while it is empty, fails with the empty-stack error (Python's `IndexError`,
the spec's `EmptyStackError`) — it never silently returns a default value. -/
theorem threadLocalStack_empty_ops_fail {α : Type} (t : ThreadLocalStack α)
    (h : t.empty = true) :
    t.pop = Except.error (PyError.indexError "pop from empty list") ∧
    t.top = Except.error (PyError.indexError "list index out of range") := by
  cases t with
  | mk s =>
    cases s with
    | nil => exact ⟨rfl, rfl⟩
    | cons a as => simp [ThreadLocalStack.empty, List.isEmpty] at h

/-- Witness for C6 at the concrete empty stack of naturals. -/
theorem threadLocalStack_empty_ops_fail_witness :
    (ThreadLocalStack.mk ([] : List Nat)).empty = true ∧
    ((ThreadLocalStack.mk ([] : List Nat)).pop =
        Except.error (PyError.indexError "pop from empty list") ∧
      (ThreadLocalStack.mk ([] : List Nat)).top =
        Except.error (PyError.indexError "list index out of range")) :=
  ⟨rfl, threadLocalStack_empty_ops_fail (ThreadLocalStack.mk []) rfl⟩

/-- C7: the claim says `require_object_name` raises exactly on names that are
empty, begin with a digit, or contain a character outside letters, digits and
underscore — and the docstring says valid names "follow the restrictions of a
Python variable name".  The code accepts the name `"a\n"`: the trailing
newline is outside the identifier character class (so the claim and the
docstring require a `ValueError`), but Python's `$` anchor matches just
before a trailing newline, so `re.match` succeeds and no error is raised. -/
theorem require_object_name_trailing_newline_bug :
    claimInvalidName "a\n" = true ∧ require_object_name "a\n" = Except.ok () := by
  constructor
  · rfl
  · rfl

/-- C8: the claim says `require_object_full_name` returns a true result on a
full name made of valid identifiers and raises on any invalid component.  In
the code, `require_object_name` returns `None`, so
`all(require_object_name(n) for n in parts)` evaluates the first component
only and yields `False`: the fully-valid name `"a/b"` gets result `False`
(not a true result), and `"a/9x"` — whose second component is invalid — also
returns `False` without raising. -/
theorem require_object_full_name_always_false_bug :
    require_object_full_name "a/b" = Except.ok false ∧
    require_object_full_name "a/9x" = Except.ok false := by
  constructor
  · rfl
  · rfl

/-! ## `ipwxlearn/utils/misc.py` — `_GeneratorContextManager`

A Python generator is modelled by its list of resumptions: the n-th call to
`next()` runs the n-th entry, which transforms the ambient state `σ` and
either yields a value (`some a`) or raises `StopIteration` (`none`).  Calling
`next()` past the end of the list raises `StopIteration` with no effect. -/

/-- A Python generator object: pending resumptions plus the current resume
position. -/
structure PyGen (σ α : Type) where
  resumes : List (σ → σ × Option α)
  pos : Nat

/-- `next(it)`: run the current resumption (or raise `StopIteration` without
an effect if the generator is exhausted) and advance the position. -/
def PyGen.next {σ α : Type} (g : PyGen σ α) (s : σ) :
    (σ × Option α) × PyGen σ α :=
  match g.resumes.get? g.pos with
  | some f => (f s, ⟨g.resumes, g.pos + 1⟩)
  | none => ((s, none), ⟨g.resumes, g.pos + 1⟩)

/-- Exceptions observable from a `with` block over `_GeneratorContextManager`:
the body's own exception, the `RuntimeError('Generator not stopped.')` raised
by `__exit__`, or a `StopIteration` escaping from `__enter__`. -/
inductive CMExc (ε : Type)
  | user (e : ε)
  | generatorNotStopped
  | stopIteration
  deriving DecidableEq

/-- The `with` statement over `_GeneratorContextManager(it)` from
`utils/misc.py`, run on state `s`:

* `__enter__` is `return next(self.it)`; a `StopIteration` there propagates;
* the body runs on the yielded value and either finishes or raises `e`;
* `__exit__` is called on *every* exit path; it calls `next(self.it)` —
  note: it resumes the generator rather than throwing the body's exception
  into it — and if that raises `StopIteration` it returns `None` (falsy, so
  the body's exception, if any, propagates); if the generator yields again,
  `__exit__` raises `RuntimeError('Generator not stopped.')`, which
  propagates in place of the body's exception.

Returns the final ambient state and the propagated exception, if any. -/
def runWith {σ α ε : Type} (g : PyGen σ α) (body : σ → α → σ × Option ε)
    (s : σ) : σ × Option (CMExc ε) :=
  match g.next s with
  | ((s1, none), _) => (s1, some CMExc.stopIteration)
  | ((s1, some a), g1) =>
      let (s2, bodyErr) := body s1 a
      match g1.next s2 with
      | ((s3, some _), _) => (s3, some CMExc.generatorNotStopped)
      | ((s3, none), _) => (s3, bodyErr.map CMExc.user)

/-- The generator produced by a `@misc.contextmanager` method of the
push/yield/pop shape, e.g. `Graph.as_default` (push the graph on the context
stack, yield it, pop on resumption): first `next` performs the push and
yields `ctx`; second `next` performs the pop and ends the generator. -/
def asDefaultGen {σ α : Type} (pushEff popEff : σ → σ) (ctx : α) :
    PyGen σ α :=
  ⟨[fun s => (pushEff s, some ctx), fun s => (popEff s, none)], 0⟩

/-! ## `ipwxlearn/training/monitors.py` -/

/-- The core of `ValidationMonitor._do_validation` (`monitors.py`): iterating
`self._valid_data.iter_epoch()` yields a list of batches, each contributing a
weight `len(args[0])` and a result of `valid_fn`.  With zero batches the code
raises `RuntimeError('No validation data.')`; with one batch it uses that
result; with several it combines them by the numpy weighted average, an
external numeric collaborator abstracted as `combine`. -/
def doValidationLoss (combine : List Nat → List Int → Int)
    (batches : List (Nat × Int)) : Except PyError Int :=
  let valid_weights := batches.map Prod.fst
  let valid_result := batches.map Prod.snd
  if valid_result.length = 0 then
    Except.error (PyError.runtimeError "No validation data.")
  else if valid_result.length = 1 then
    Except.ok (valid_result.headD 0)
  else
    Except.ok (combine valid_weights valid_result)

/-- Configuration of `EveryFewStepMonitor` (`monitors.py`): the `seconds` and
`steps` constructor arguments.  Wall-clock timestamps from `time.time()` are
modelled as integers threaded explicitly through the operations. -/
structure EveryFewStepMonitor where
  seconds : Option Int
  steps : Option Int
  deriving DecidableEq

/-- `EveryFewStepMonitor.__init__`: raises `ValueError` when both `seconds`
and `steps` are `None`. -/
def EveryFewStepMonitor.init (seconds steps : Option Int) :
    Except PyError EveryFewStepMonitor :=
  if seconds.isNone && steps.isNone then
    Except.error
      (PyError.valueError "At least either \"seconds\" or \"steps\" should be specified.")
  else
    Except.ok ⟨seconds, steps⟩

/-- Mutable state of `EveryFewStepMonitor`: `_last_chk_time` and
`_last_chk_step`. -/
structure EFSState where
  lastChkTime : Int
  lastChkStep : Int
  deriving DecidableEq

/-- `EveryFewStepMonitor.start_training`: records the current time and step 0. -/
def EveryFewStepMonitor.startTraining (now : Int) : EFSState :=
  ⟨now, 0⟩

/-- `EveryFewStepMonitor.end_step`: fires `_every_few_steps` when the step
count or the time interval since the last firing has elapsed, then records
the firing step and time.  (The source re-samples `time.time()` around the
action; the embedding threads the single timestamp `now`.)  Returns whether
the periodic action fired together with the new state. -/
def EveryFewStepMonitor.endStep (m : EveryFewStepMonitor) (st : EFSState)
    (step : Int) (now : Int) : Bool × EFSState :=
  if (match m.steps with
      | some k => step - st.lastChkStep ≥ k
      | none => false) ||
     (match m.seconds with
      | some sec => now - st.lastChkTime ≥ sec
      | none => false) then
    (true, ⟨now, step⟩)
  else
    (false, st)

/-! ## Session, graph cache and checkpoints

The implementation of `ipwxlearn/glue/common/{graph,session}.py` is not part
of the analysed sources (only its tests and callers are), so the definitions
in this section are *modelled from the spec* (sections 3, 4.3, 4.4 and 4.5),
cross-checked against `tests/glue/test_session.py`.  Variable values are
`Int`; association lists keyed by full variable name stand for the Python
dictionaries. -/

/-- Lookup in an association list (first match wins, like a Python dict with
unique keys). -/
def lookupA (l : List (String × Int)) (k : String) : Option Int :=
  match l with
  | [] => none
  | (k2, v) :: rest => if k2 = k then some v else lookupA rest k

/-- Update/insert in an association list (`d[k] = v`). -/
def updateA (l : List (String × Int)) (k : String) (v : Int) :
    List (String × Int) :=
  match l with
  | [] => [(k, v)]
  | (k2, v2) :: rest =>
      if k2 = k then (k, v) :: rest else (k2, v2) :: updateA rest k v

/-- Modelled from the spec: the three load-bearing variable tags
(`trainable`, `persistent`, `resumable`). -/
structure VariableTags where
  trainable : Bool
  persistent : Bool
  resumable : Bool
  deriving DecidableEq

/-- Tags that make a variable "graph-resident": eligible for the graph's
last-value cache (`trainable` or `persistent`). -/
def VariableTags.graphResident (t : VariableTags) : Bool :=
  t.trainable || t.persistent

/-- Tags that make a variable eligible for checkpoint snapshots
(`trainable`, `persistent` or `resumable`). -/
def VariableTags.checkpointable (t : VariableTags) : Bool :=
  t.trainable || t.persistent || t.resumable

/-- Modelled from the spec: a declared variable — full name, tags, and the
value its zero-argument initializer produces. -/
structure VarDecl where
  name : String
  tags : VariableTags
  init : Int
  deriving DecidableEq

/-- Modelled from the spec: a computation graph — the declared variables and
the cross-session last-value cache, keyed by full name. -/
structure Graph where
  vars : List VarDecl
  lastValues : List (String × Int)
  deriving DecidableEq

/-- `graph.get_last_value`: absent if never recorded. -/
def Graph.getLastValue (g : Graph) (name : String) : Option Int :=
  lookupA g.lastValues name

/-- `graph.record_last_value`: overwrites the cache entry. -/
def Graph.recordLastValue (g : Graph) (name : String) (v : Int) : Graph :=
  ⟨g.vars, updateA g.lastValues name v⟩

/-- Modelled from the spec: the on-disk checkpoint directory for one path
prefix — the `P.v<index>` variables-files and `P.m<index>` memo-files, each
an index paired with its contents, kept in ascending index order. -/
structure CheckpointDir where
  varFiles : List (Nat × List (String × Int))
  memoFiles : List (Nat × List (String × Int))
  deriving DecidableEq

/-- The file with the highest index, if any. -/
def latestFile (files : List (Nat × List (String × Int))) :
    Option (Nat × List (String × Int)) :=
  files.foldl
    (fun acc e =>
      match acc with
      | none => some e
      | some a => if a.1 ≤ e.1 then some e else some a)
    none

/-- One plus the highest index among existing files, or `1` if none exist. -/
def nextIndexAfter (files : List (Nat × List (String × Int))) : Nat :=
  1 + files.foldl (fun n e => max n e.1) 0

/-- Retention, modelled from the spec: "delete the lowest-indexed ones until
the count equals the maximum".  Files are kept in ascending index order, so
this drops from the front. -/
def pruneTo (m : Nat) (files : List (Nat × List (String × Int))) :
    List (Nat × List (String × Int)) :=
  files.drop (files.length - m)

/-- Modelled from the spec: a session — bound graph, the per-session value
table (which doubles as the backend storage the session proxies to), the
memo with its dirty flag, and checkpoint bookkeeping.  `maxCheckpoints` is
`some m` exactly when a checkpoint path is configured; `disk` is the
checkpoint directory owned by the session. -/
structure Session where
  graph : Graph
  values : List (String × Int)
  memo : List (String × Int)
  memoDirty : Bool
  maxCheckpoints : Option Nat
  nextCheckpointIndex : Nat
  disk : CheckpointDir
  deriving DecidableEq

/-- The latest checkpoint snapshot loaded on session entry: present only
when a checkpoint path is configured and a variables-file exists. -/
def openSnapshot (disk : CheckpointDir) (cfg : Option Nat) :
    Option (List (String × Int)) :=
  if cfg.isSome then (latestFile disk.varFiles).map Prod.snd else none

/-- Resolver 1: the caller's explicit `feed_values` override. -/
def feedResolver (feed : List (String × Int)) (v : VarDecl) : Option Int :=
  lookupA feed v.name

/-- Resolver 2: with the force-reinitialize flag, the variable's own
initializer. -/
def reinitResolver (forceReinit : Bool) (v : VarDecl) : Option Int :=
  if forceReinit then some v.init else none

/-- Resolver 3: the value in the latest checkpoint snapshot, when present. -/
def checkpointResolver (snapshot : Option (List (String × Int)))
    (v : VarDecl) : Option Int :=
  snapshot.bind (fun snap => lookupA snap v.name)

/-- Resolver 4: the graph's last-value cache. -/
def cacheResolver (g : Graph) (v : VarDecl) : Option Int :=
  g.getLastValue v.name

/-- First result of an ordered list of resolver strategies (the spec models
the priority chain as resolvers tried in order, each producing a value or
declining). -/
def firstSome (fs : List (VarDecl → Option Int)) (v : VarDecl) : Option Int :=
  match fs with
  | [] => none
  | f :: rest =>
      match f v with
      | some x => some x
      | none => firstSome rest v

/-- Modelled from the spec (§4.4): the ordered resolver chain of a session
being opened; a declining chain falls through to the initializer. -/
def resolveInitial (feed : List (String × Int)) (forceReinit : Bool)
    (snapshot : Option (List (String × Int))) (g : Graph) (v : VarDecl) :
    Int :=
  (firstSome
      [feedResolver feed, reinitResolver forceReinit,
       checkpointResolver snapshot, cacheResolver g] v).getD v.init

/-- Modelled from the spec (§4.4, §4.5): opening a session against graph `g`
over disk state `disk`.  Resolves every variable's effective initial value
through the resolver chain; initializes `next_checkpoint_index` to one plus
the highest variables-file index (or `1`); loads the highest-indexed
memo-file into a clean memo (empty absent a file or a checkpoint path). -/
def Session.open (g : Graph) (disk : CheckpointDir)
    (feed : List (String × Int)) (forceReinit : Bool) (cfg : Option Nat) :
    Session :=
  let snapshot := openSnapshot disk cfg
  { graph := g
    values := g.vars.map (fun v => (v.name, resolveInitial feed forceReinit snapshot g v))
    memo :=
      if cfg.isSome then ((latestFile disk.memoFiles).map Prod.snd).getD []
      else []
    memoDirty := false
    maxCheckpoints := cfg
    nextCheckpointIndex := if cfg.isSome then nextIndexAfter disk.varFiles else 1
    disk := disk }

/-- `set_variable_values`: proxies writes to backend storage. -/
def Session.setValues (s : Session) (assigns : List (String × Int)) :
    Session :=
  { s with values := assigns.foldl (fun vs a => updateA vs a.1 a.2) s.values }

/-- `session.memo[k] = v`: mutates the memo and marks it dirty. -/
def Session.memoSet (s : Session) (k : String) (v : Int) : Session :=
  { s with memo := updateA s.memo k v, memoDirty := true }

/-- The backend value of variable `v` as seen by session `s`. -/
def Session.valueOf (s : Session) (v : VarDecl) : Int :=
  (lookupA s.values v.name).getD v.init

/-- Modelled from the spec (§4.5): `session.checkpoint()` — snapshot the
current values of all `trainable`/`persistent`/`resumable` variables into a
new variables-file at `next_checkpoint_index`; if the memo is dirty, write a
memo-file at the same index and mark it clean; advance the index; apply
retention independently to each file kind.  A no-op when no checkpoint path
is configured. -/
def Session.checkpoint (s : Session) : Session :=
  match s.maxCheckpoints with
  | none => s
  | some m =>
      let idx := s.nextCheckpointIndex
      let snap :=
        (s.graph.vars.filter (fun v => v.tags.checkpointable)).map
          (fun v => (v.name, s.valueOf v))
      { s with
        disk :=
          { varFiles := pruneTo m (s.disk.varFiles ++ [(idx, snap)])
            memoFiles :=
              if s.memoDirty then pruneTo m (s.disk.memoFiles ++ [(idx, s.memo)])
              else pruneTo m s.disk.memoFiles }
        nextCheckpointIndex := idx + 1
        memoDirty := false }

/-- Modelled from the spec (§4.4): on scoped exit the session records the
final backend value of every `trainable`/`persistent` variable into the
graph's last-value cache; other variables are never written back. -/
def Session.close (s : Session) : Graph :=
  s.graph.vars.foldl
    (fun g v =>
      if v.tags.graphResident then g.recordLastValue v.name (s.valueOf v)
      else g)
    s.graph

/-- An operation performed inside a session, for stating properties of
operation sequences. -/
inductive SessionOp
  | setValues (assigns : List (String × Int))
  | memoSet (k : String) (v : Int)
  | checkpointOp
  deriving DecidableEq

/-- Apply one session operation. -/
def SessionOp.apply (s : Session) : SessionOp → Session
  | SessionOp.setValues as => s.setValues as
  | SessionOp.memoSet k v => s.memoSet k v
  | SessionOp.checkpointOp => s.checkpoint

/-- Run a sequence of session operations. -/
def runOps (s : Session) (ops : List SessionOp) : Session :=
  ops.foldl SessionOp.apply s

/-- Number of `checkpoint()` calls in an operation sequence. -/
def cpCount : List SessionOp → Nat
  | [] => 0
  | SessionOp.checkpointOp :: rest => cpCount rest + 1
  | _ :: rest => cpCount rest

/-- Reference definition following the claim's words: the indices at which a
memo-file is actually written, for a run starting at checkpoint index `idx`
with memo dirtiness `dirty` — a checkpoint writes a memo-file exactly when
the memo has been mutated since the last load or save. -/
def memoWriteIndices : Nat → Bool → List SessionOp → List Nat
  | _, _, [] => []
  | idx, dirty, op :: rest =>
      match op with
      | SessionOp.setValues _ => memoWriteIndices idx dirty rest
      | SessionOp.memoSet _ _ => memoWriteIndices idx true rest
      | SessionOp.checkpointOp =>
          (if dirty then [idx] else []) ++ memoWriteIndices (idx + 1) false rest

/-- A graph cache is well-formed when every cached entry belongs to a
declared variable that is graph-resident — the invariant maintained by
`record_last_value` being called only for `trainable`/`persistent`
variables. -/
def Graph.cacheWF (g : Graph) : Prop :=
  ∀ p ∈ g.lastValues, ∃ v ∈ g.vars, v.name = p.1 ∧ v.tags.graphResident = true

/-! ### Association-list and fold lemmas -/

theorem lookupA_updateA (l : List (String × Int)) (k k2 : String) (v : Int) :
    lookupA (updateA l k v) k2 = if k = k2 then some v else lookupA l k2 := by
  induction l with
  | nil => simp [lookupA, updateA]
  | cons p rest ih =>
    obtain ⟨a, b⟩ := p
    by_cases h : a = k
    · subst h
      simp only [updateA, if_pos rfl, lookupA]
      by_cases h2 : a = k2 <;> simp [h2]
    · simp only [updateA, if_neg h, lookupA]
      by_cases h2 : a = k2
      · subst h2
        have hka : ¬k = a := fun he => h he.symm
        simp [hka]
      · simp [h2, ih]

theorem lookupA_eq_some_mem {l : List (String × Int)} {k : String} {x : Int} :
    lookupA l k = some x → (k, x) ∈ l := by
  induction l with
  | nil => intro h; simp [lookupA] at h
  | cons p rest ih =>
    obtain ⟨a, b⟩ := p
    intro h
    simp only [lookupA] at h
    by_cases hak : a = k
    · subst hak
      rw [if_pos rfl] at h
      obtain rfl : b = x := Option.some.inj h
      exact List.mem_cons_self _ _
    · rw [if_neg hak] at h
      exact List.mem_cons_of_mem _ (ih h)

theorem lookupA_map_of_mem (L : List VarDecl) (f : VarDecl → Int)
    (v : VarDecl) (hv : v ∈ L) (hnd : (L.map VarDecl.name).Nodup) :
    lookupA (L.map fun w => (w.name, f w)) v.name = some (f v) := by
  induction L with
  | nil => simp at hv
  | cons w rest ih =>
    simp only [List.map_cons, List.nodup_cons] at hnd
    rcases List.mem_cons.mp hv with rfl | hv2
    · simp [lookupA]
    · have hne : w.name ≠ v.name := by
        intro hwv
        exact hnd.1 (hwv ▸ List.mem_map_of_mem VarDecl.name hv2)
      simp only [List.map_cons, lookupA, if_neg hne]
      exact ih hv2 hnd.2

@[simp] theorem firstSome_nil (v : VarDecl) : firstSome [] v = none := rfl

@[simp] theorem firstSome_cons (f : VarDecl → Option Int)
    (fs : List (VarDecl → Option Int)) (v : VarDecl) :
    firstSome (f :: fs) v =
      (match f v with
       | some x => some x
       | none => firstSome fs v) := rfl

theorem close_fold_lookup_notmem (s : Session) (L : List VarDecl) (g0 : Graph)
    (name : String) (h : name ∉ L.map VarDecl.name) :
    Graph.getLastValue
        (L.foldl
          (fun g w =>
            if w.tags.graphResident then g.recordLastValue w.name (s.valueOf w)
            else g)
          g0) name =
      g0.getLastValue name := by
  induction L generalizing g0 with
  | nil => rfl
  | cons w rest ih =>
    simp only [List.map_cons, List.mem_cons, not_or] at h
    simp only [List.foldl_cons]
    rw [ih _ h.2]
    have hne : ¬w.name = name := fun he => h.1 he.symm
    by_cases hr : w.tags.graphResident
    · simp only [if_pos hr, Graph.getLastValue, Graph.recordLastValue,
        lookupA_updateA, if_neg hne]
    · simp [if_neg hr]

theorem close_fold_lookup (s : Session) (L : List VarDecl) (g0 : Graph)
    (v : VarDecl) (hv : v ∈ L) (hnd : (L.map VarDecl.name).Nodup) :
    Graph.getLastValue
        (L.foldl
          (fun g w =>
            if w.tags.graphResident then g.recordLastValue w.name (s.valueOf w)
            else g)
          g0) v.name =
      (if v.tags.graphResident then some (s.valueOf v)
       else g0.getLastValue v.name) := by
  induction L generalizing g0 with
  | nil => simp at hv
  | cons w rest ih =>
    simp only [List.map_cons, List.nodup_cons] at hnd
    rcases List.mem_cons.mp hv with rfl | hv2
    · simp only [List.foldl_cons]
      rw [close_fold_lookup_notmem s rest _ v.name hnd.1]
      by_cases hr : v.tags.graphResident
      · simp [if_pos hr, Graph.getLastValue, Graph.recordLastValue,
          lookupA_updateA]
      · simp [if_neg hr]
    · have hne : w.name ≠ v.name := by
        intro hwv
        exact hnd.1 (hwv ▸ List.mem_map_of_mem VarDecl.name hv2)
      simp only [List.foldl_cons]
      rw [ih _ hv2 hnd.2]
      by_cases hr : w.tags.graphResident
      · simp only [if_pos hr, Graph.getLastValue, Graph.recordLastValue,
          lookupA_updateA, if_neg hne]
      · simp [if_neg hr]

/-! ### Retention lemmas -/

/-- The checkpoint indices `1, 2, …, c` written by `c` checkpoint calls of a
fresh session. -/
def range1 (c : Nat) : List Nat := (List.range c).map (· + 1)

/-- Retention on bare index lists (ascending): keep the last `m`. -/
def pruneIdx (m : Nat) (l : List Nat) : List Nat :=
  l.drop (l.length - m)

theorem range1_length (c : Nat) : (range1 c).length = c := by
  simp [range1]

theorem range1_succ (c : Nat) : range1 (c + 1) = range1 c ++ [c + 1] := by
  simp [range1, List.range_succ]

theorem pruneIdx_length (m : Nat) (l : List Nat) :
    (pruneIdx m l).length = min l.length m := by
  simp only [pruneIdx, List.length_drop]
  omega

theorem pruneIdx_of_length_le {m : Nat} {l : List Nat} (h : l.length ≤ m) :
    pruneIdx m l = l := by
  simp [pruneIdx, Nat.sub_eq_zero_of_le h]

theorem pruneIdx_idem (m : Nat) (l : List Nat) :
    pruneIdx m (pruneIdx m l) = pruneIdx m l :=
  pruneIdx_of_length_le (by rw [pruneIdx_length]; omega)

theorem pruneIdx_append_single (m : Nat) (l : List Nat) (e : Nat) :
    pruneIdx m (pruneIdx m l ++ [e]) = pruneIdx m (l ++ [e]) := by
  simp only [pruneIdx, List.length_append, List.length_drop,
    List.drop_append_eq_append_drop, List.drop_drop, List.length_singleton]
  congr 1
  · congr 1
    omega
  · congr 1
    omega

theorem pruneTo_length (m : Nat) (l : List (Nat × List (String × Int))) :
    (pruneTo m l).length = min l.length m := by
  simp only [pruneTo, List.length_drop]
  omega

theorem pruneTo_of_length_le {m : Nat} {l : List (Nat × List (String × Int))}
    (h : l.length ≤ m) : pruneTo m l = l := by
  simp [pruneTo, Nat.sub_eq_zero_of_le h]

theorem map_fst_pruneTo (m : Nat) (l : List (Nat × List (String × Int))) :
    (pruneTo m l).map Prod.fst = pruneIdx m (l.map Prod.fst) := by
  simp [pruneTo, pruneIdx, List.map_drop]

theorem mem_pruneTo_append {m : Nat} (hm : 1 ≤ m)
    (l : List (Nat × List (String × Int))) (e : Nat × List (String × Int)) :
    e ∈ pruneTo m (l ++ [e]) := by
  simp only [pruneTo, List.length_append, List.length_singleton,
    List.drop_append_eq_append_drop]
  have h0 : l.length + 1 - m - l.length = 0 := by omega
  rw [h0, List.drop_zero]
  exact List.mem_append_right _ (List.mem_singleton.mpr rfl)

/-! ### Projections of `Session.checkpoint` under a configured path -/

theorem checkpoint_varFiles (s : Session) (m : Nat)
    (h : s.maxCheckpoints = some m) :
    (s.checkpoint).disk.varFiles =
      pruneTo m (s.disk.varFiles ++
        [(s.nextCheckpointIndex,
          (s.graph.vars.filter fun v => v.tags.checkpointable).map
            fun v => (v.name, s.valueOf v))]) := by
  simp [Session.checkpoint, h]

theorem checkpoint_memoFiles (s : Session) (m : Nat)
    (h : s.maxCheckpoints = some m) :
    (s.checkpoint).disk.memoFiles =
      if s.memoDirty then
        pruneTo m (s.disk.memoFiles ++ [(s.nextCheckpointIndex, s.memo)])
      else pruneTo m s.disk.memoFiles := by
  simp only [Session.checkpoint, h]

theorem checkpoint_nextIndex (s : Session) (m : Nat)
    (h : s.maxCheckpoints = some m) :
    (s.checkpoint).nextCheckpointIndex = s.nextCheckpointIndex + 1 := by
  simp [Session.checkpoint, h]

theorem checkpoint_maxCheckpoints (s : Session) (m : Nat)
    (h : s.maxCheckpoints = some m) :
    (s.checkpoint).maxCheckpoints = some m := by
  simp [Session.checkpoint, h]

theorem checkpoint_memoDirty (s : Session) (m : Nat)
    (h : s.maxCheckpoints = some m) :
    (s.checkpoint).memoDirty = false := by
  simp [Session.checkpoint, h]

theorem checkpoint_memo (s : Session) (m : Nat)
    (h : s.maxCheckpoints = some m) :
    (s.checkpoint).memo = s.memo := by
  simp [Session.checkpoint, h]

/-- Invariant of an operation run: starting from a session whose
variables-files hold the last `m` of the indices `1..c` and whose memo-files
hold the last `m` of the written-index list `M`, running any operation
sequence leaves the variables-files at the last `m` of `1..c+k` (for `k` the
number of checkpoint calls) and the memo-files at the last `m` of `M`
extended by the indices at which a memo-file is written. -/
theorem runOps_disk_spec (ops : List SessionOp) :
    ∀ (s : Session) (m c : Nat) (M : List Nat),
      s.maxCheckpoints = some m →
      s.nextCheckpointIndex = c + 1 →
      s.disk.varFiles.map Prod.fst = pruneIdx m (range1 c) →
      s.disk.memoFiles.map Prod.fst = pruneIdx m M →
      (runOps s ops).disk.varFiles.map Prod.fst =
          pruneIdx m (range1 (c + cpCount ops)) ∧
        (runOps s ops).disk.memoFiles.map Prod.fst =
          pruneIdx m (M ++ memoWriteIndices (c + 1) s.memoDirty ops) := by
  induction ops with
  | nil =>
    intro s m c M h1 h2 h3 h4
    exact ⟨by simpa [runOps, cpCount] using h3,
      by simpa [runOps, memoWriteIndices] using h4⟩
  | cons op rest ih =>
    intro s m c M h1 h2 h3 h4
    have hrun : runOps s (op :: rest) = runOps (SessionOp.apply s op) rest := rfl
    cases op with
    | setValues as =>
      rw [hrun]
      have hres := ih (s.setValues as) m c M h1 h2 h3 h4
      simpa [SessionOp.apply, cpCount, memoWriteIndices, Session.setValues]
        using hres
    | memoSet k x =>
      rw [hrun]
      have hres := ih (s.memoSet k x) m c M h1 h2 h3 h4
      simpa [SessionOp.apply, cpCount, memoWriteIndices, Session.memoSet]
        using hres
    | checkpointOp =>
      rw [hrun]
      simp only [SessionOp.apply]
      have h1' : (s.checkpoint).maxCheckpoints = some m :=
        checkpoint_maxCheckpoints s m h1
      have h2' : (s.checkpoint).nextCheckpointIndex = (c + 1) + 1 := by
        rw [checkpoint_nextIndex s m h1, h2]
      have h3' : (s.checkpoint).disk.varFiles.map Prod.fst =
          pruneIdx m (range1 (c + 1)) := by
        rw [checkpoint_varFiles s m h1, map_fst_pruneTo]
        simp only [List.map_append, List.map_cons, List.map_nil, h2, h3]
        rw [pruneIdx_append_single, ← range1_succ]
      have hcp : c + 1 + cpCount rest =
          c + cpCount (SessionOp.checkpointOp :: rest) := by
        simp only [cpCount]
        omega
      cases hd : s.memoDirty with
      | true =>
        have h4' : (s.checkpoint).disk.memoFiles.map Prod.fst =
            pruneIdx m (M ++ [c + 1]) := by
          rw [checkpoint_memoFiles s m h1, hd, if_pos rfl, map_fst_pruneTo]
          simp only [List.map_append, List.map_cons, List.map_nil, h2, h4]
          rw [pruneIdx_append_single]
        have hres := ih s.checkpoint m (c + 1) (M ++ [c + 1]) h1' h2' h3' h4'
        rw [checkpoint_memoDirty s m h1] at hres
        refine ⟨?_, ?_⟩
        · rw [hres.1, hcp]
        · rw [hres.2]
          have hM : M ++ [c + 1] ++ memoWriteIndices (c + 1 + 1) false rest =
              M ++ memoWriteIndices (c + 1) true (SessionOp.checkpointOp :: rest) := by
            simp [memoWriteIndices]
          rw [hM]
      | false =>
        have h4' : (s.checkpoint).disk.memoFiles.map Prod.fst =
            pruneIdx m M := by
          rw [checkpoint_memoFiles s m h1, hd, if_neg (by simp), map_fst_pruneTo,
            h4, pruneIdx_idem]
        have hres := ih s.checkpoint m (c + 1) M h1' h2' h3' h4'
        rw [checkpoint_memoDirty s m h1] at hres
        refine ⟨?_, ?_⟩
        · rw [hres.1, hcp]
        · rw [hres.2]
          have hM : memoWriteIndices (c + 1) false (SessionOp.checkpointOp :: rest) =
              memoWriteIndices (c + 1 + 1) false rest := by
            simp [memoWriteIndices]
          rw [hM]

/-! ### Claim theorems: C1, C2 -/

/-- C1: for every variable declared in the graph a session is opened on, the
session's effective initial value is chosen by strict priority with first
match winning: (1) the caller's `feed_values` override; (2) under the
force-reinitialize flag, the variable's initializer; (3) the value in the
most recent checkpoint snapshot, when a checkpoint path is configured and
the snapshot contains it; (4) the graph's last-value cache entry; (5)
otherwise a fresh value from the initializer. -/
theorem session_resolution_priority (g : Graph) (disk : CheckpointDir)
    (feed : List (String × Int)) (forceReinit : Bool) (cfg : Option Nat)
    (v : VarDecl) (hv : v ∈ g.vars)
    (hnd : (g.vars.map VarDecl.name).Nodup) :
    lookupA (Session.open g disk feed forceReinit cfg).values v.name =
      some
        (match lookupA feed v.name with
         | some x => x
         | none =>
             if forceReinit then v.init
             else
               match (openSnapshot disk cfg).bind (fun snap => lookupA snap v.name) with
               | some x => x
               | none =>
                   match g.getLastValue v.name with
                   | some x => x
                   | none => v.init) := by
  show lookupA (g.vars.map fun w =>
      (w.name, resolveInitial feed forceReinit (openSnapshot disk cfg) g w)) v.name = _
  rw [lookupA_map_of_mem g.vars _ v hv hnd]
  congr 1
  simp only [resolveInitial, firstSome_cons, firstSome_nil, feedResolver,
    reinitResolver, checkpointResolver, cacheResolver]
  cases hfeed : lookupA feed v.name with
  | some x => simp [hfeed]
  | none =>
    simp only [hfeed]
    cases forceReinit with
    | true => simp
    | false =>
      simp only [Bool.false_eq_true, if_false]
      cases hsnap : (openSnapshot disk cfg).bind (fun snap => lookupA snap v.name) with
      | some x => simp [hsnap]
      | none =>
        simp only [hsnap]
        cases hcache : g.getLastValue v.name with
        | some x => simp [hcache]
        | none => simp [hcache]

/-- Witness for C1: a one-variable graph, no feed, no force-reinit, no
checkpoint path and an empty cache — the resolution falls through to the
initializer. -/
theorem session_resolution_priority_witness :
    (VarDecl.mk "a" ⟨true, false, false⟩ 1) ∈
        (Graph.mk [VarDecl.mk "a" ⟨true, false, false⟩ 1] []).vars ∧
    ((Graph.mk [VarDecl.mk "a" ⟨true, false, false⟩ 1] []).vars.map
        VarDecl.name).Nodup ∧
    lookupA
        (Session.open (Graph.mk [VarDecl.mk "a" ⟨true, false, false⟩ 1] [])
          ⟨[], []⟩ [] false none).values "a" =
      some 1 :=
  ⟨by decide, by decide, by
    simpa using
      session_resolution_priority
        (Graph.mk [VarDecl.mk "a" ⟨true, false, false⟩ 1] []) ⟨[], []⟩ []
        false none (VarDecl.mk "a" ⟨true, false, false⟩ 1) (by decide)
        (by decide)⟩

/-- C2: after a session exits, `graph.get_last_value(v)` yields a value iff
`v` is tagged `trainable` or `persistent`, and when present it equals the
value `v` held at session-exit time; `resumable`-only or untagged variables
are never written into the cache (their entry stays absent, given the cache
held only resident entries to begin with). -/
theorem session_close_cache_gating (s : Session) (v : VarDecl)
    (hv : v ∈ s.graph.vars) (hnd : (s.graph.vars.map VarDecl.name).Nodup)
    (hwf : s.graph.cacheWF) :
    (Session.close s).getLastValue v.name =
      (if v.tags.graphResident then some (s.valueOf v) else none) := by
  unfold Session.close
  rw [close_fold_lookup s s.graph.vars s.graph v hv hnd]
  by_cases hr : v.tags.graphResident
  · simp [hr]
  · simp only [if_neg hr]
    cases hcache : s.graph.getLastValue v.name with
    | none => rfl
    | some x =>
      exfalso
      obtain ⟨w, hw, hwname, hwres⟩ :=
        hwf (v.name, x) (lookupA_eq_some_mem hcache)
      have : w = v :=
        List.inj_on_of_nodup_map hnd hw hv hwname
      rw [this] at hwres
      exact hr hwres

/-- Witness for C2: closing a session over a two-variable graph (one
persistent, one untagged) records exactly the persistent variable's exit
value. -/
theorem session_close_cache_gating_witness :
    (VarDecl.mk "a" ⟨false, true, false⟩ 1) ∈
        (Session.mk (Graph.mk
            [VarDecl.mk "a" ⟨false, true, false⟩ 1,
             VarDecl.mk "c" ⟨false, false, false⟩ 3] [])
          [("a", 10), ("c", 30)] [] false none 1 ⟨[], []⟩).graph.vars ∧
    ((Session.mk (Graph.mk
            [VarDecl.mk "a" ⟨false, true, false⟩ 1,
             VarDecl.mk "c" ⟨false, false, false⟩ 3] [])
          [("a", 10), ("c", 30)] [] false none 1 ⟨[], []⟩).graph.vars.map
        VarDecl.name).Nodup ∧
    (Session.close (Session.mk (Graph.mk
            [VarDecl.mk "a" ⟨false, true, false⟩ 1,
             VarDecl.mk "c" ⟨false, false, false⟩ 3] [])
          [("a", 10), ("c", 30)] [] false none 1 ⟨[], []⟩)).getLastValue "a" =
      some 10 :=
  ⟨by decide, by decide, by
    simpa using
      session_close_cache_gating
        (Session.mk (Graph.mk
            [VarDecl.mk "a" ⟨false, true, false⟩ 1,
             VarDecl.mk "c" ⟨false, false, false⟩ 3] [])
          [("a", 10), ("c", 30)] [] false none 1 ⟨[], []⟩)
        (VarDecl.mk "a" ⟨false, true, false⟩ 1) (by decide) (by decide)
        (by intro p hp; simp at hp)⟩

/-! ### Claim theorems: C3, C4 -/

/-- C3: after `k` calls to `checkpoint()` on a fresh session configured with
`max_checkpoints = m` (with arbitrary value and memo operations
interleaved), exactly `min(k, m)` variables-files exist and they are the
highest-indexed ones ever written (the last `min(k, m)` of indices
`1, …, k`); the same retention rule holds independently for memo-files,
counting only the indices at which a memo-file was actually written. -/
theorem checkpoint_retention (g : Graph) (m : Nat) (ops : List SessionOp) :
    (runOps (Session.open g ⟨[], []⟩ [] false (some m)) ops).disk.varFiles.map
        Prod.fst =
      ((List.range (cpCount ops)).map (· + 1)).drop (cpCount ops - m) ∧
    (runOps (Session.open g ⟨[], []⟩ [] false (some m)) ops).disk.varFiles.length =
      min (cpCount ops) m ∧
    (runOps (Session.open g ⟨[], []⟩ [] false (some m)) ops).disk.memoFiles.map
        Prod.fst =
      (memoWriteIndices 1 false ops).drop ((memoWriteIndices 1 false ops).length - m) ∧
    (runOps (Session.open g ⟨[], []⟩ [] false (some m)) ops).disk.memoFiles.length =
      min (memoWriteIndices 1 false ops).length m := by
  have hdm : (Session.open g ⟨[], []⟩ [] false (some m)).memoDirty = false := rfl
  have h := runOps_disk_spec ops (Session.open g ⟨[], []⟩ [] false (some m))
    m 0 [] rfl rfl (by simp [Session.open, pruneIdx, range1])
    (by simp [Session.open, pruneIdx])
  rw [hdm] at h
  simp only [Nat.zero_add, List.nil_append] at h
  refine ⟨?_, ?_, ?_, ?_⟩
  · rw [h.1]
    simp [pruneIdx, range1]
  · calc (runOps (Session.open g ⟨[], []⟩ [] false (some m)) ops).disk.varFiles.length
        = ((runOps (Session.open g ⟨[], []⟩ [] false (some m)) ops).disk.varFiles.map
            Prod.fst).length := (List.length_map _ _).symm
      _ = (pruneIdx m (range1 (cpCount ops))).length := by rw [h.1]
      _ = min (cpCount ops) m := by rw [pruneIdx_length, range1_length]
  · rw [h.2]
    rfl
  · calc (runOps (Session.open g ⟨[], []⟩ [] false (some m)) ops).disk.memoFiles.length
        = ((runOps (Session.open g ⟨[], []⟩ [] false (some m)) ops).disk.memoFiles.map
            Prod.fst).length := (List.length_map _ _).symm
      _ = (pruneIdx m (memoWriteIndices 1 false ops)).length := by rw [h.2]
      _ = min (memoWriteIndices 1 false ops).length m := pruneIdx_length _ _

/-- C4: with the memo dirty, calling `checkpoint()` twice in a row with no
memo mutation in between writes a variables-file at both indices but a
memo-file only at the first index — the second call adds no memo-file (the
memo-file set is unchanged); mutating a memo key between the calls makes
the second call write a new memo-file at the second index carrying the
updated content. -/
theorem checkpoint_memo_idempotence (s : Session) (m : Nat) (key : String)
    (x : Int) (hcfg : s.maxCheckpoints = some m) (hm : 1 ≤ m)
    (hdirty : s.memoDirty = true) :
    (∃ snap, (s.nextCheckpointIndex, snap) ∈ (s.checkpoint).disk.varFiles) ∧
    (∃ snap, (s.nextCheckpointIndex + 1, snap) ∈
        ((s.checkpoint).checkpoint).disk.varFiles) ∧
    (s.nextCheckpointIndex, s.memo) ∈ (s.checkpoint).disk.memoFiles ∧
    ((s.checkpoint).checkpoint).disk.memoFiles = (s.checkpoint).disk.memoFiles ∧
    (s.nextCheckpointIndex + 1, updateA s.memo key x) ∈
      (((s.checkpoint).memoSet key x).checkpoint).disk.memoFiles := by
  have h1' : (s.checkpoint).maxCheckpoints = some m :=
    checkpoint_maxCheckpoints s m hcfg
  have hmemo1 : (s.checkpoint).disk.memoFiles =
      pruneTo m (s.disk.memoFiles ++ [(s.nextCheckpointIndex, s.memo)]) := by
    rw [checkpoint_memoFiles s m hcfg, hdirty, if_pos rfl]
  refine ⟨?_, ?_, ?_, ?_, ?_⟩
  · rw [checkpoint_varFiles s m hcfg]
    exact ⟨_, mem_pruneTo_append hm _ _⟩
  · rw [checkpoint_varFiles s.checkpoint m h1', checkpoint_nextIndex s m hcfg]
    exact ⟨_, mem_pruneTo_append hm _ _⟩
  · rw [hmemo1]
    exact mem_pruneTo_append hm _ _
  · rw [checkpoint_memoFiles s.checkpoint m h1', checkpoint_memoDirty s m hcfg]
    simp only [Bool.false_eq_true, if_false]
    apply pruneTo_of_length_le
    rw [hmemo1, pruneTo_length]
    omega
  · have e1 : ((s.checkpoint).memoSet key x).maxCheckpoints = some m := h1'
    rw [checkpoint_memoFiles _ m e1]
    simp only [Session.memoSet, if_true]
    rw [checkpoint_nextIndex s m hcfg, checkpoint_memo s m hcfg]
    exact mem_pruneTo_append hm _ _

/-- Witness for C4 at a concrete dirty session with `max_checkpoints = 1`. -/
theorem checkpoint_memo_idempotence_witness :
    (Session.mk (Graph.mk [] []) [] [("k", 9)] true (some 1) 1 ⟨[], []⟩).maxCheckpoints =
        some 1 ∧
    1 ≤ 1 ∧
    (Session.mk (Graph.mk [] []) [] [("k", 9)] true (some 1) 1 ⟨[], []⟩).memoDirty =
        true ∧
    ((∃ snap, ((Session.mk (Graph.mk [] []) [] [("k", 9)] true (some 1) 1
          ⟨[], []⟩).nextCheckpointIndex, snap) ∈
        ((Session.mk (Graph.mk [] []) [] [("k", 9)] true (some 1) 1
          ⟨[], []⟩).checkpoint).disk.varFiles) ∧
      (∃ snap, ((Session.mk (Graph.mk [] []) [] [("k", 9)] true (some 1) 1
            ⟨[], []⟩).nextCheckpointIndex + 1, snap) ∈
        (((Session.mk (Graph.mk [] []) [] [("k", 9)] true (some 1) 1
          ⟨[], []⟩).checkpoint).checkpoint).disk.varFiles) ∧
      ((Session.mk (Graph.mk [] []) [] [("k", 9)] true (some 1) 1
          ⟨[], []⟩).nextCheckpointIndex,
        (Session.mk (Graph.mk [] []) [] [("k", 9)] true (some 1) 1
          ⟨[], []⟩).memo) ∈
        ((Session.mk (Graph.mk [] []) [] [("k", 9)] true (some 1) 1
          ⟨[], []⟩).checkpoint).disk.memoFiles ∧
      (((Session.mk (Graph.mk [] []) [] [("k", 9)] true (some 1) 1
          ⟨[], []⟩).checkpoint).checkpoint).disk.memoFiles =
        ((Session.mk (Graph.mk [] []) [] [("k", 9)] true (some 1) 1
          ⟨[], []⟩).checkpoint).disk.memoFiles ∧
      ((Session.mk (Graph.mk [] []) [] [("k", 9)] true (some 1) 1
          ⟨[], []⟩).nextCheckpointIndex + 1,
        updateA (Session.mk (Graph.mk [] []) [] [("k", 9)] true (some 1) 1
          ⟨[], []⟩).memo "k" 7) ∈
        ((((Session.mk (Graph.mk [] []) [] [("k", 9)] true (some 1) 1
          ⟨[], []⟩).checkpoint).memoSet "k" 7).checkpoint).disk.memoFiles) :=
  ⟨rfl, le_refl 1, rfl,
    checkpoint_memo_idempotence
      (Session.mk (Graph.mk [] []) [] [("k", 9)] true (some 1) 1 ⟨[], []⟩)
      1 "k" 7 rfl (le_refl 1) rfl⟩

/-! ### Claim theorems: C5, C9, C10 -/

/-- C5: for every scoped activation built with the `contextmanager` wrapper
over a push/yield/pop generator (e.g. `Graph.as_default`), leaving the
`with` block resumes the generator past its yield — so the pop of the
context stack runs — on *every* exit path, including when the body raises,
and the body's exception still propagates to the caller. -/
theorem runWith_pops_and_propagates {σ α ε : Type} (pushEff popEff : σ → σ)
    (ctx : α) (body : σ → α → σ × Option ε) (s : σ) :
    runWith (asDefaultGen pushEff popEff ctx) body s =
      (popEff (body (pushEff s) ctx).1,
        ((body (pushEff s) ctx).2).map CMExc.user) := by
  unfold runWith asDefaultGen PyGen.next
  simp

/-- C9: when the validation data yields zero batches, the validation pass
raises the no-validation-data error; it is never silently skipped (the pass
succeeds only on a nonempty batch list). -/
theorem doValidationLoss_empty_raises (combine : List Nat → List Int → Int)
    (batches : List (Nat × Int)) :
    doValidationLoss combine batches =
        Except.error (PyError.runtimeError "No validation data.") ↔
      batches = [] := by
  cases batches with
  | nil => simp [doValidationLoss]
  | cons b bs =>
    simp only [doValidationLoss, List.map_cons, List.length_cons]
    constructor
    · intro hc
      split at hc
      · omega
      · exact absurd hc (by split <;> simp)
    · intro hc
      exact absurd hc (by simp)

/-- C10: constructing `EveryFewStepMonitor` (hence any of its subclasses)
with both `seconds=None` and `steps=None` raises `ValueError`; with at least
one of the two given, construction succeeds and `end_step` fires the
periodic action exactly when the configured step count or time interval
since the last firing has elapsed. -/
theorem everyFewStepMonitor_init_and_fire (seconds steps : Option Int)
    (st : EFSState) (step now : Int)
    (h : seconds ≠ none ∨ steps ≠ none) :
    EveryFewStepMonitor.init none none =
        Except.error
          (PyError.valueError "At least either \"seconds\" or \"steps\" should be specified.") ∧
    ∃ m : EveryFewStepMonitor,
      EveryFewStepMonitor.init seconds steps = Except.ok m ∧
      ((m.endStep st step now).1 = true ↔
        (∃ k, steps = some k ∧ step - st.lastChkStep ≥ k) ∨
        (∃ sec, seconds = some sec ∧ now - st.lastChkTime ≥ sec)) := by
  refine ⟨rfl, ⟨seconds, steps⟩, ?_, ?_⟩
  · unfold EveryFewStepMonitor.init
    cases seconds with
    | none =>
      cases steps with
      | none => simp at h
      | some k => rfl
    | some sec => rfl
  · unfold EveryFewStepMonitor.endStep
    cases steps with
    | none =>
      cases seconds with
      | none => simp at h
      | some sec => by_cases hc : now - st.lastChkTime ≥ sec <;> simp [hc]
    | some k =>
      cases seconds with
      | none =>
        by_cases hc : step - st.lastChkStep ≥ k <;> simp [hc]
      | some sec =>
        by_cases hc1 : step - st.lastChkStep ≥ k <;>
          by_cases hc2 : now - st.lastChkTime ≥ sec <;> simp [hc1, hc2]

/-- Witness for C10 at a concrete configuration (`seconds=None`, `steps=5`). -/
theorem everyFewStepMonitor_init_and_fire_witness :
    ((none : Option Int) ≠ none ∨ (some (5 : Int) : Option Int) ≠ none) ∧
    (EveryFewStepMonitor.init none none =
        Except.error
          (PyError.valueError "At least either \"seconds\" or \"steps\" should be specified.") ∧
    ∃ m : EveryFewStepMonitor,
      EveryFewStepMonitor.init none (some 5) = Except.ok m ∧
      ((m.endStep ⟨0, 0⟩ 7 3).1 = true ↔
        (∃ k, (some (5 : Int) : Option Int) = some k ∧ (7 : Int) - (0 : Int) ≥ k) ∨
        (∃ sec, (none : Option Int) = some sec ∧ (3 : Int) - (0 : Int) ≥ sec))) :=
  ⟨Or.inr (by simp),
    everyFewStepMonitor_init_and_fire none (some 5) ⟨0, 0⟩ 7 3 (Or.inr (by simp))⟩

end Ipwx
